import Mathlib

/-!
Verification of the climate-dashboard data pipeline (`app.py`).

The dashboard pipeline is, in order:
  * `load_data` (lines 10-13): read the CSV, `dropna()` on the wide frame
    (a row with any missing cell is dropped whole);
  * rename the first column to `Indicator` (line 22) and coerce the
    remaining (year) columns to numeric with `errors="coerce"` (line 26);
  * `melt` to long format (line 32), coerce `Year` and `Value` (lines 33-34)
    and `dropna()` per long row (line 35), giving `df_long`;
  * `indicators = sorted(df_long["Indicator"].unique())` (line 39);
  * `min_year` / `max_year` = `int(df_long["Year"].min() / .max())` (lines 41-42);
  * `filtered` = boolean-mask filter on indicator and inclusive year range
    (lines 46-48);
  * KPI block (lines 74-77): `latest_year = filtered["Year"].max()`,
    `latest_value = filtered[filtered["Year"] == latest_year]["Value"].values[0]`,
    `average_value = round(filtered["Value"].mean(), 2)`,
    `max_value = filtered["Value"].max()`.

Modelling conventions: cell values are rationals (`ℚ`) standing for the
numeric values; a missing cell (NaN) is `Cell.na`; a textual cell is
`Cell.str`.  `pd.to_numeric(..., errors="coerce")` is modelled by a parser
accepting integer literals (the year labels and all inputs of interest are
integer literals); an unparseable field coerces to missing.  Python string
comparison (by code points) is modelled by an explicit lexicographic order
on the character lists.  Python runtime exceptions that the script can
actually raise (`IndexError` from `.values[0]` on an empty selection,
`ValueError` from `int(nan)`) and the designed error taxonomy of the
specification (`EmptyResultError`, `EmptyDatasetError`, `LoadError(...)`)
are constructors of one error type so that the two can be compared; the
constructors in the second group are never produced by the code as
written.
-/

deriving instance DecidableEq for Except

/-- A single long-format record: one (indicator, year, value) fact. -/
structure Obs where
  indicator : String
  year : Int
  value : ℚ
deriving DecidableEq, Repr

/-- A raw cell of the wide CSV as read: missing (NaN), numeric, or text. -/
inductive Cell where
  | na : Cell
  | num : ℚ → Cell
  | str : String → Cell
deriving DecidableEq, Repr

/-- One row of the wide frame: the first (indicator) column plus the cells
under the year columns. -/
structure WideRow where
  indicator : String
  cells : List Cell
deriving DecidableEq, Repr

/-- The wide frame: the header labels of the columns after the first, and
the rows. -/
structure WideTable where
  yearLabels : List String
  rows : List WideRow
deriving DecidableEq, Repr

/-- Errors: `indexError` and `valueError` are the exceptions the Python
script actually raises; the remaining constructors are the designed error
taxonomy of the specification, which the script as written never raises. -/
inductive Err where
  | indexError : Err
  | valueError : Err
  | emptyResultError : Err
  | emptyDatasetError : Err
  | loadUnrecognizedLayout : Err
  | loadEmptyResult : Err
deriving DecidableEq, Repr

/-- Summary of a filtered sequence: the three KPI values (lines 74-77). -/
structure Summary where
  latestValue : ℚ
  maxValue : ℚ
  averageValue : ℚ
deriving DecidableEq, Repr

/-- Model of `pd.to_numeric(s, errors="coerce")` restricted to the integer
literals that occur as year labels and cell text: a non-empty all-digit
string parses to its value, anything else coerces to missing. -/
def parseNum? (s : String) : Option Int :=
  let ds := s.data
  if ds ≠ [] ∧ ds.all Char.isDigit then
    some (ds.foldl (fun n c => 10 * n + (Int.ofNat (c.toNat - 48))) 0)
  else none

/-- Is the cell missing (NaN)? -/
def cellIsNA : Cell → Bool
  | Cell.na => true
  | _ => false

/-- Line 12: `df.dropna()` on the wide frame — a row with any missing cell
is dropped whole.  Textual cells are not missing and survive this step. -/
def dropnaWide (rows : List WideRow) : List WideRow :=
  rows.filter (fun r => !(r.cells.any cellIsNA))

/-- Lines 26/34: numeric coercion of a cell, missing on failure. -/
def coerceCell : Cell → Option ℚ
  | Cell.na => none
  | Cell.num q => some q
  | Cell.str s => (parseNum? s).map (fun i => (i : ℚ))

/-- Line 32: `df.melt(id_vars=["Indicator"], ...)` — column-major
stacking: all rows under the first year column, then all rows under the
second, and so on.  Produces raw (indicator, year-label, cell) triples. -/
def melt : List String → List WideRow → List (String × String × Cell)
  | [], _ => []
  | lab :: labs, rows =>
      rows.map (fun r => (r.indicator, lab, r.cells.headD Cell.na))
        ++ melt labs (rows.map (fun r => { indicator := r.indicator, cells := r.cells.tail }))

/-- Lines 33-35: coerce `Year` (the former column label) and `Value` of
one long row; the row is dropped (`dropna`) if either coercion fails. -/
def coerceTriple (t : String × String × Cell) : Option Obs :=
  match parseNum? t.2.1, coerceCell t.2.2 with
  | some y, some v => some { indicator := t.1, year := y, value := v }
  | _, _ => none

/-- The full load-and-normalize pipeline producing `df_long`
(lines 10-35): wide `dropna`, melt, per-row coercion and `dropna`.
The script performs no layout detection and no emptiness check: every
input is treated as wide and the (possibly empty) list is returned. -/
def dfLong (t : WideTable) : List Obs :=
  (melt t.yearLabels (dropnaWide t.rows)).filterMap coerceTriple

/-- Lexicographic comparison of character lists by code point — the order
Python uses to compare strings. -/
def lexLe : List Char → List Char → Bool
  | [], _ => true
  | _ :: _, [] => false
  | a :: as, b :: bs =>
      if a.toNat < b.toNat then true
      else if b.toNat < a.toNat then false
      else lexLe as bs

/-- Python string comparison `a <= b`: lexicographic by code points. -/
def strLe (a b : String) : Prop := lexLe a.data b.data = true

instance : DecidableRel strLe := fun _ _ => instDecidableEqBool _ _

/-- First-occurrence deduplication, as `pandas.Series.unique` (line 39). -/
def uniqueFirst : List String → List String
  | [] => []
  | x :: xs => x :: (uniqueFirst xs).filter (fun y => y ≠ x)

/-- Line 39: `sorted(df_long["Indicator"].unique())`. -/
def indicators (l : List Obs) : List String :=
  (uniqueFirst (l.map (fun o => o.indicator))).insertionSort strLe

/-- Running minimum of a column, seeded at `a` — `Series.min`. -/
def foldMin {α : Type} [LinearOrder α] (a : α) (l : List α) : α :=
  l.foldl min a

/-- Running maximum of a column, seeded at `a` — `Series.max`. -/
def foldMax {α : Type} [LinearOrder α] (a : α) (l : List α) : α :=
  l.foldl max a

/-- Lines 41-42: `int(df_long["Year"].min())`, `int(df_long["Year"].max())`.
On an empty frame the column minimum is `NaN` and `int(NaN)` raises
`ValueError`. -/
def yearBounds : List Obs → Except Err (Int × Int)
  | [] => Except.error Err.valueError
  | o :: rest =>
      Except.ok (foldMin o.year (rest.map (fun x => x.year)),
                 foldMax o.year (rest.map (fun x => x.year)))

/-- Lines 46-48: the boolean-mask filter — exact indicator match and
inclusive year range, preserving frame order. -/
def filterObs (l : List Obs) (ind : String) (lo hi : Int) : List Obs :=
  l.filter (fun o => decide (o.indicator = ind ∧ lo ≤ o.year ∧ o.year ≤ hi))

/-- Rounding to two decimal places, as `round(q, 2)` on an exact rational
(ties half-up in this model). -/
def round2 (q : ℚ) : ℚ :=
  ((⌊q * 100 + 1 / 2⌋ : Int) : ℚ) / 100

/-- The KPI block (lines 74-77) on the filtered sequence.
`latest_year` is the column maximum (`NaN` on an empty frame);
`filtered[filtered["Year"] == latest_year]["Value"].values[0]` selects the
first row whose year equals it and raises `IndexError` when that selection
is empty — in particular whenever the filtered sequence itself is empty,
since `NaN == NaN` is false. -/
def summarizeCode : List Obs → Except Err Summary
  | [] => Except.error Err.indexError
  | o :: rest =>
      match ((o :: rest).filter
          (fun x => decide (x.year = foldMax o.year (rest.map (fun y => y.year))))).head? with
      | none => Except.error Err.indexError
      | some ox =>
          Except.ok { latestValue := ox.value
                    , maxValue := foldMax o.value (rest.map (fun y => y.value))
                    , averageValue :=
                        round2 (((o :: rest).map (fun y => y.value)).sum
                          / (((o :: rest).length : ℚ))) }

/-! ### Concrete test inputs -/

/-- A long-layout input (columns `Indicator`, `Year`, `Value`) as the
pipeline sees it after parsing: the first column is taken as indicator and
`Year`, `Value` become the (non-numeric) column labels. -/
def longLayoutTable : WideTable :=
  { yearLabels := ["Year", "Value"],
    rows := [⟨"CO2 emissions", [Cell.num 2000, Cell.num 5]⟩] }

/-- A wide table whose only row has a missing cell, so zero observations
survive the load pipeline. -/
def naRowTable : WideTable :=
  { yearLabels := ["2000"], rows := [⟨"A", [Cell.na]⟩] }

/-- The synthetic round-trip wide table: indicators A, B and year columns
2000, 2001, all cells numeric. -/
def wideAB : WideTable :=
  { yearLabels := ["2000", "2001"],
    rows := [⟨"A", [Cell.num 1, Cell.num 2]⟩, ⟨"B", [Cell.num 3, Cell.num 4]⟩] }

/-- A wide table with one fully-missing-affected row (indicator A: its
2000 cell is missing) and one complete row (indicator B: a numeric 2000
cell and a textual, non-numeric 2001 cell). -/
def mixedTable : WideTable :=
  { yearLabels := ["2000", "2001"],
    rows := [⟨"A", [Cell.na, Cell.num 5]⟩, ⟨"B", [Cell.num 1, Cell.str "oops"]⟩] }

/-! ### Helper lemmas -/

theorem lexLe_total : ∀ as bs : List Char, lexLe as bs = true ∨ lexLe bs as = true
  | [], _ => Or.inl rfl
  | _ :: _, [] => Or.inr rfl
  | a :: as, b :: bs => by
      rcases Nat.lt_trichotomy a.toNat b.toNat with h | h | h

      · left; simp [lexLe, h]
      · have h1 : ¬ a.toNat < b.toNat := by omega
        have h2 : ¬ b.toNat < a.toNat := by omega
        rcases lexLe_total as bs with ih | ih
        · left; simp [lexLe, h1, h2, ih]
        · right; simp [lexLe, h1, h2, ih]
      · right; simp [lexLe, h]

theorem lexLe_trans : ∀ as bs cs : List Char,
    lexLe as bs = true → lexLe bs cs = true → lexLe as cs = true
  | [], _, _, _, _ => rfl
  | _ :: _, [], _, h1, _ => by simp [lexLe] at h1
  | _ :: _, _ :: _, [], _, h2 => by simp [lexLe] at h2
  | a :: as, b :: bs, c :: cs, h1, h2 => by
      by_cases hab : a.toNat < b.toNat
      · by_cases hbc : b.toNat < c.toNat
        · have hac : a.toNat < c.toNat := Nat.lt_trans hab hbc
          simp [lexLe, hac]
        · by_cases hcb : c.toNat < b.toNat
          · simp [lexLe, hbc, hcb] at h2
          · have hac : a.toNat < c.toNat := by omega
            simp [lexLe, hac]
      · by_cases hba : b.toNat < a.toNat
        · simp [lexLe, hab, hba] at h1
        · by_cases hbc : b.toNat < c.toNat
          · have hac : a.toNat < c.toNat := by omega
            simp [lexLe, hac]
          · by_cases hcb : c.toNat < b.toNat
            · simp [lexLe, hbc, hcb] at h2
            · have h1' : lexLe as bs = true := by simpa [lexLe, hab, hba] using h1
              have h2' : lexLe bs cs = true := by simpa [lexLe, hbc, hcb] using h2
              have hac1 : ¬ a.toNat < c.toNat := by omega
              have hac2 : ¬ c.toNat < a.toNat := by omega
              simpa [lexLe, hac1, hac2] using lexLe_trans as bs cs h1' h2'

instance : IsTotal String strLe := ⟨fun a b => lexLe_total a.data b.data⟩

instance : IsTrans String strLe := ⟨fun a b c => lexLe_trans a.data b.data c.data⟩

theorem mem_uniqueFirst (s : String) : ∀ l : List String, s ∈ uniqueFirst l ↔ s ∈ l
  | [] => Iff.rfl
  | x :: xs => by
      simp only [uniqueFirst, List.mem_cons, List.mem_filter, mem_uniqueFirst s xs,
        decide_eq_true_eq]
      by_cases hsx : s = x <;> simp [hsx]

theorem nodup_uniqueFirst : ∀ l : List String, (uniqueFirst l).Nodup
  | [] => List.nodup_nil
  | x :: xs => by
      refine List.nodup_cons.2 ⟨fun hx => ?_, List.Nodup.filter _ (nodup_uniqueFirst xs)⟩
      have := (List.mem_filter.1 hx).2
      simp at this

theorem foldMax_mem {α : Type} [LinearOrder α] :
    ∀ (l : List α) (a : α), foldMax a l ∈ a :: l
  | [], a => List.mem_singleton.2 rfl
  | b :: l, a => by
      show List.foldl max (max a b) l ∈ a :: b :: l
      rcases List.mem_cons.1 (foldMax_mem l (max a b)) with h | h
      · have h' : List.foldl max (max a b) l = max a b := h
        rw [h']
        rcases max_choice a b with hm | hm <;> rw [hm]
        · exact List.mem_cons_self _ _
        · exact List.mem_cons_of_mem _ (List.mem_cons_self _ _)
      · exact List.mem_cons_of_mem _ (List.mem_cons_of_mem _ h)

theorem le_foldMax {α : Type} [LinearOrder α] :
    ∀ (l : List α) (a x : α), x ∈ a :: l → x ≤ foldMax a l
  | [], a, x, hx => by
      rcases List.mem_singleton.1 hx with rfl
      exact le_refl _
  | b :: l, a, x, hx => by
      show x ≤ List.foldl max (max a b) l
      have hmax : max a b ≤ List.foldl max (max a b) l :=
        le_foldMax l (max a b) _ (List.mem_cons_self _ _)
      rcases List.mem_cons.1 hx with rfl | h
      · exact le_trans (le_max_left _ _) hmax
      · rcases List.mem_cons.1 h with rfl | h'
        · exact le_trans (le_max_right _ _) hmax
        · exact le_foldMax l (max a b) _ (List.mem_cons_of_mem _ h')

theorem foldMin_mem {α : Type} [LinearOrder α] :
    ∀ (l : List α) (a : α), foldMin a l ∈ a :: l
  | [], a => List.mem_singleton.2 rfl
  | b :: l, a => by
      show List.foldl min (min a b) l ∈ a :: b :: l
      rcases List.mem_cons.1 (foldMin_mem l (min a b)) with h | h
      · have h' : List.foldl min (min a b) l = min a b := h
        rw [h']
        rcases min_choice a b with hm | hm <;> rw [hm]
        · exact List.mem_cons_self _ _
        · exact List.mem_cons_of_mem _ (List.mem_cons_self _ _)
      · exact List.mem_cons_of_mem _ (List.mem_cons_of_mem _ h)

theorem foldMin_le {α : Type} [LinearOrder α] :
    ∀ (l : List α) (a x : α), x ∈ a :: l → foldMin a l ≤ x
  | [], a, x, hx => by
      rcases List.mem_singleton.1 hx with rfl
      exact le_refl _
  | b :: l, a, x, hx => by
      show List.foldl min (min a b) l ≤ x
      have hmin : List.foldl min (min a b) l ≤ min a b :=
        foldMin_le l (min a b) _ (List.mem_cons_self _ _)
      rcases List.mem_cons.1 hx with rfl | h
      · exact le_trans hmin (min_le_left _ _)
      · rcases List.mem_cons.1 h with rfl | h'
        · exact le_trans hmin (min_le_right _ _)
        · exact foldMin_le l (min a b) _ (List.mem_cons_of_mem _ h')

theorem head?_filter_eq_find? {α : Type} (p : α → Bool) :
    ∀ l : List α, (l.filter p).head? = l.find? p
  | [] => rfl
  | a :: l => by
      by_cases h : p a
      · simp [List.filter_cons, List.find?_cons, h]
      · simp [List.filter_cons, List.find?_cons, h, head?_filter_eq_find? p l]

theorem find?_decomp {α : Type} (p : α → Bool) :
    ∀ (l : List α) (a : α), l.find? p = some a →
      ∃ pre post, l = pre ++ a :: post ∧ p a = true ∧ ∀ x ∈ pre, p x = false
  | [], a, h => by simp [List.find?] at h
  | b :: l, a, h => by
      by_cases hb : p b
      · rw [List.find?_cons_of_pos _ hb, Option.some_inj] at h
        exact ⟨[], l, by simp [h], h ▸ hb, by simp⟩
      · have hb' : p b = false := Bool.eq_false_iff.2 hb
        rw [List.find?_cons_of_neg _ hb] at h
        obtain ⟨pre, post, hl, hpa, hpre⟩ := find?_decomp p l a h
        refine ⟨b :: pre, post, by rw [hl]; rfl, hpa, ?_⟩
        intro x hx
        rcases List.mem_cons.1 hx with rfl | hx'
        · exact hb'
        · exact hpre x hx'

theorem find?_isSome_of_mem {α : Type} (p : α → Bool) :
    ∀ (l : List α) (a : α), a ∈ l → p a = true → (l.find? p).isSome
  | [], a, ha, _ => by simp at ha
  | b :: l, a, ha, hp => by
      by_cases hb : p b
      · rw [List.find?_cons_of_pos _ hb]; rfl
      · rw [List.find?_cons_of_neg _ hb]
        rcases List.mem_cons.1 ha with rfl | ha'
        · exact absurd hp hb
        · exact find?_isSome_of_mem p l a ha' hp

theorem any_cellIsNA_iff (cs : List Cell) : cs.any cellIsNA = true ↔ Cell.na ∈ cs := by
  rw [List.any_eq_true]
  constructor
  · rintro ⟨c, hc, hna⟩
    cases c with
    | na => exact hc
    | num q => simp [cellIsNA] at hna
    | str s => simp [cellIsNA] at hna
  · intro h
    exact ⟨Cell.na, h, rfl⟩

theorem mem_dropnaWide (rows : List WideRow) (r : WideRow) :
    r ∈ dropnaWide rows ↔ r ∈ rows ∧ Cell.na ∉ r.cells := by
  rw [dropnaWide, List.mem_filter]
  constructor
  · rintro ⟨hr, hb⟩
    rw [Bool.not_eq_true'] at hb
    refine ⟨hr, fun hna => ?_⟩
    have hx := (any_cellIsNA_iff r.cells).2 hna
    rw [hb] at hx
    exact Bool.false_ne_true hx
  · rintro ⟨hr, hna⟩
    refine ⟨hr, ?_⟩
    cases hb : r.cells.any cellIsNA
    · rfl
    · exact absurd ((any_cellIsNA_iff r.cells).1 hb) hna

theorem melt_indicator_mem :
    ∀ (labs : List String) (rows : List WideRow) (trip : String × String × Cell),
      trip ∈ melt labs rows → ∃ r ∈ rows, trip.1 = r.indicator
  | [], _, _, h => by simp [melt] at h
  | lab :: labs, rows, trip, h => by
      rcases List.mem_append.1 h with h' | h'
      · rcases List.mem_map.1 h' with ⟨r, hr, rfl⟩
        exact ⟨r, hr, rfl⟩
      · obtain ⟨r', hr', htrip⟩ := melt_indicator_mem labs _ trip h'
        rcases List.mem_map.1 hr' with ⟨r, hr, rfl⟩
        exact ⟨r, hr, htrip⟩

theorem get?_tail {α : Type} (l : List α) (j : ℕ) : l.tail.get? j = l.get? (j + 1) := by
  cases l <;> rfl

theorem melt_mem_of_get? :
    ∀ (labs : List String) (rows : List WideRow) (j : ℕ) (lab : String)
      (r : WideRow) (c : Cell),
      labs.get? j = some lab → r ∈ rows → r.cells.get? j = some c →
      (r.indicator, lab, c) ∈ melt labs rows
  | [], _, j, _, _, _, hlab, _, _ => by simp at hlab
  | lab0 :: labs, rows, 0, lab, r, c, hlab, hr, hc => by
      have hlab0 : lab0 = lab := by simpa using hlab
      subst hlab0
      apply List.mem_append_left
      have hhead : r.cells.headD Cell.na = c := by
        cases hcs : r.cells with
        | nil => rw [hcs] at hc; simp at hc
        | cons c0 cs =>
            rw [hcs] at hc
            simp at hc
            simp [hc]
      refine List.mem_map.2 ⟨r, hr, ?_⟩
      show (r.indicator, lab0, r.cells.headD Cell.na) = (r.indicator, lab0, c)
      rw [hhead]
  | lab0 :: labs, rows, j + 1, lab, r, c, hlab, hr, hc => by
      apply List.mem_append_right
      have hlab' : labs.get? j = some lab := by simpa using hlab
      have hc' : (WideRow.mk r.indicator r.cells.tail).cells.get? j = some c := by
        show r.cells.tail.get? j = some c
        rw [get?_tail]
        exact hc
      have hr' : (WideRow.mk r.indicator r.cells.tail) ∈
          rows.map (fun rr => WideRow.mk rr.indicator rr.cells.tail) :=
        List.mem_map_of_mem _ hr
      exact melt_mem_of_get? labs
        (rows.map (fun rr => WideRow.mk rr.indicator rr.cells.tail)) j lab
        (WideRow.mk r.indicator r.cells.tail) c hlab' hr' hc'

theorem coerceTriple_eq_some (trip : String × String × Cell) (o : Obs)
    (h : coerceTriple trip = some o) :
    o.indicator = trip.1 ∧ parseNum? trip.2.1 = some o.year ∧
      coerceCell trip.2.2 = some o.value := by
  rcases hy : parseNum? trip.2.1 with _ | y <;>
    rcases hv : coerceCell trip.2.2 with _ | v <;>
      simp [coerceTriple, hy, hv] at h
  rw [← h]
  exact ⟨rfl, rfl, rfl⟩

/-! ### Claim theorems -/

/-- C1: on every empty input sequence the summary block of the script
crashes with an index/bounds fault — the `IndexError` that
`.values[0]` raises on an empty selection — and not with the designed
`EmptyResultError`; in particular on the empty result of
`filter("A", 2050, 2060)` over a dataset whose only year is 2024. -/
theorem summarize_empty_index_fault :
    summarizeCode ([] : List Obs) = Except.error Err.indexError ∧
    filterObs [⟨"A", 2024, 1⟩] "A" 2050 2060 = [] ∧
    summarizeCode (filterObs [⟨"A", 2024, 1⟩] "A" 2050 2060)
      = Except.error Err.indexError ∧
    Err.indexError ≠ Err.emptyResultError := by decide

/-- C2: for every query with `lo ≤ hi`, an observation of the loaded set
appears in the filtered result iff its indicator matches exactly and its
year lies in the inclusive range; when nothing matches the result is the
empty list (the filter cannot fail). -/
theorem filter_membership_correct (l : List Obs) (ind : String) (lo hi : Int)
    (hlh : lo ≤ hi) :
    (∀ o ∈ l, (o ∈ filterObs l ind lo hi ↔
        (o.indicator = ind ∧ lo ≤ o.year ∧ o.year ≤ hi))) ∧
    ((∀ o ∈ l, ¬ (o.indicator = ind ∧ lo ≤ o.year ∧ o.year ≤ hi)) →
        filterObs l ind lo hi = []) := by
  constructor
  · intro o ho
    simp [filterObs, List.mem_filter, ho]
  · intro h
    apply List.filter_eq_nil_iff.2
    intro a ha
    simpa using h a ha

/-- Witness for C2 at a concrete dataset and query. -/
theorem filter_membership_correct_witness :
    ((2000 : Int) ≤ 2024) ∧
    ((∀ o ∈ [Obs.mk "A" 2024 1, Obs.mk "B" 2010 2],
        (o ∈ filterObs [Obs.mk "A" 2024 1, Obs.mk "B" 2010 2] "A" 2000 2024 ↔
          (o.indicator = "A" ∧ 2000 ≤ o.year ∧ o.year ≤ 2024))) ∧
     ((∀ o ∈ [Obs.mk "A" 2024 1, Obs.mk "B" 2010 2],
        ¬ (o.indicator = "A" ∧ 2000 ≤ o.year ∧ o.year ≤ 2024)) →
        filterObs [Obs.mk "A" 2024 1, Obs.mk "B" 2010 2] "A" 2000 2024 = [])) :=
  ⟨by decide,
   filter_membership_correct [Obs.mk "A" 2024 1, Obs.mk "B" 2010 2] "A" 2000 2024
     (by decide)⟩

/-- C3 counterexample: the filter preserves frame order and performs no
sort, so on a loaded set whose years are out of order the filtered result
is not non-decreasing in year — refuting the claim that the result is
ascending regardless of the order of the loaded set. -/
theorem filter_sort_counterexample :
    filterObs [⟨"A", 2001, 1⟩, ⟨"A", 2000, 2⟩] "A" 1990 2010
      = [⟨"A", 2001, 1⟩, ⟨"A", 2000, 2⟩] ∧
    ¬ List.Pairwise (fun a b : Obs => a.year ≤ b.year)
        (filterObs [⟨"A", 2001, 1⟩, ⟨"A", 2000, 2⟩] "A" 1990 2010) := by
  constructor
  · decide
  · decide

/-- C3 amended: the filtered result is a sublist of the loaded set
(frame order is preserved, no sort is applied), hence it is
non-decreasing in year whenever the loaded set is. -/
theorem filter_preserves_year_order (l : List Obs) (ind : String) (lo hi : Int)
    (h : List.Pairwise (fun a b : Obs => a.year ≤ b.year) l) :
    List.Sublist (filterObs l ind lo hi) l ∧
    List.Pairwise (fun a b : Obs => a.year ≤ b.year) (filterObs l ind lo hi) :=
  ⟨List.filter_sublist l, h.sublist (List.filter_sublist l)⟩

/-- Witness for the amended C3 at a concrete year-ascending dataset. -/
theorem filter_preserves_year_order_witness :
    List.Pairwise (fun a b : Obs => a.year ≤ b.year)
      [Obs.mk "A" 2000 2, Obs.mk "A" 2001 1] ∧
    (List.Sublist (filterObs [Obs.mk "A" 2000 2, Obs.mk "A" 2001 1] "A" 1990 2010)
        [Obs.mk "A" 2000 2, Obs.mk "A" 2001 1] ∧
     List.Pairwise (fun a b : Obs => a.year ≤ b.year)
        (filterObs [Obs.mk "A" 2000 2, Obs.mk "A" 2001 1] "A" 1990 2010)) :=
  ⟨by decide,
   filter_preserves_year_order [Obs.mk "A" 2000 2, Obs.mk "A" 2001 1] "A" 1990 2010
     (by decide)⟩

/-- C5: the loader performs no layout detection: an already-long table
(columns `Indicator`, `Year`, `Value`) is unconditionally treated as wide
and melted, silently yielding zero observations — the cell
`(CO2 emissions, 2000, 5)` is lost — and no
`LoadError(UnrecognizedLayout)` path exists (the pipeline is a total
function into plain observation lists). -/
theorem loader_assumes_wide_layout :
    dfLong longLayoutTable = [] ∧
    Obs.mk "CO2 emissions" 2000 5 ∉ dfLong longLayoutTable := by
  decide

/-- C6 counterexample: on a wide table whose only row has a missing cell,
zero observations remain, yet the pipeline returns the empty collection as
an ordinary success value (its result type has no failure channel at all)
and the downstream catalog is computed from it — no
`LoadError(EmptyResult)` is raised. -/
theorem load_returns_empty_counterexample :
    dfLong naRowTable = [] ∧
    indicators (dfLong naRowTable) = [] := by
  decide

/-- C6 amended: the load pipeline performs no emptiness check; a
zero-observation result is returned as an ordinary empty list, and the
failure only surfaces downstream, when the year-bounds computation raises
its conversion error and the summary block its index fault. -/
theorem load_no_empty_check (t : WideTable) (h : dfLong t = []) :
    yearBounds (dfLong t) = Except.error Err.valueError ∧
    summarizeCode (dfLong t) = Except.error Err.indexError := by
  rw [h]
  exact ⟨rfl, rfl⟩

/-- Witness for the amended C6 at a concrete all-missing table. -/
theorem load_no_empty_check_witness :
    yearBounds (dfLong naRowTable) = Except.error Err.valueError ∧
    summarizeCode (dfLong naRowTable) = Except.error Err.indexError :=
  load_no_empty_check naRowTable (by decide)

/-- C7 counterexample: on the empty observation set the year-bounds
computation fails with the unhandled `ValueError` that `int(nan)` raises,
not with the designed `EmptyDatasetError`. -/
theorem yearBounds_error_counterexample :
    yearBounds [] = Except.error Err.valueError ∧
    (Except.error Err.valueError : Except Err (Int × Int))
      ≠ Except.error Err.emptyDatasetError := by
  constructor
  · rfl
  · decide

/-- C7 amended: on every non-empty observation set the year bounds are the
attained global minimum and maximum year (so `min ≤ max`); on the empty
set the computation fails, but with an unhandled numeric-conversion error
(`int(nan)` raising `ValueError`), not a designed `EmptyDatasetError`. -/
theorem yearBounds_minmax (l : List Obs) (o : Obs) (ho : o ∈ l) :
    ∃ mn mx, yearBounds l = Except.ok (mn, mx) ∧ mn ≤ mx ∧
      (∃ a ∈ l, a.year = mn) ∧ (∃ b ∈ l, b.year = mx) ∧
      (∀ x ∈ l, mn ≤ x.year ∧ x.year ≤ mx) := by
  obtain ⟨o0, rest, rfl⟩ := List.exists_cons_of_ne_nil (List.ne_nil_of_mem ho)
  have hmem : ∀ x ∈ o0 :: rest, x.year ∈ o0.year :: rest.map (fun y => y.year) := by
    intro x hx
    rcases List.mem_cons.1 hx with rfl | hx'
    · exact List.mem_cons_self _ _
    · exact List.mem_cons_of_mem _ (List.mem_map_of_mem _ hx')
  refine ⟨_, _, rfl, ?_, ?_, ?_, ?_⟩
  · exact le_trans (foldMin_le _ _ _ (List.mem_cons_self _ _))
      (le_foldMax _ _ _ (List.mem_cons_self _ _))
  · rcases List.mem_cons.1 (foldMin_mem (rest.map (fun y => y.year)) o0.year) with h | h
    · exact ⟨o0, List.mem_cons_self _ _, h.symm⟩
    · rcases List.mem_map.1 h with ⟨x, hx, hxy⟩
      exact ⟨x, List.mem_cons_of_mem _ hx, hxy⟩
  · rcases List.mem_cons.1 (foldMax_mem (rest.map (fun y => y.year)) o0.year) with h | h
    · exact ⟨o0, List.mem_cons_self _ _, h.symm⟩
    · rcases List.mem_map.1 h with ⟨x, hx, hxy⟩
      exact ⟨x, List.mem_cons_of_mem _ hx, hxy⟩
  · intro x hx
    exact ⟨foldMin_le _ _ _ (hmem x hx), le_foldMax _ _ _ (hmem x hx)⟩

/-- Witness for the amended C7 at a concrete two-element dataset. -/
theorem yearBounds_minmax_witness :
    Obs.mk "A" 2001 1 ∈ [Obs.mk "A" 2001 1, Obs.mk "A" 2000 2] ∧
    (∃ mn mx, yearBounds [Obs.mk "A" 2001 1, Obs.mk "A" 2000 2] = Except.ok (mn, mx) ∧
      mn ≤ mx ∧
      (∃ a ∈ [Obs.mk "A" 2001 1, Obs.mk "A" 2000 2], a.year = mn) ∧
      (∃ b ∈ [Obs.mk "A" 2001 1, Obs.mk "A" 2000 2], b.year = mx) ∧
      (∀ x ∈ [Obs.mk "A" 2001 1, Obs.mk "A" 2000 2], mn ≤ x.year ∧ x.year ≤ mx)) :=
  ⟨by decide,
   yearBounds_minmax [Obs.mk "A" 2001 1, Obs.mk "A" 2000 2] (Obs.mk "A" 2001 1)
     (by decide)⟩

/-- C8: the indicator catalog is a pure function of the loaded set —
repeated calls give the same sequence — and each result is exactly the
distinct indicator values, without duplicates, sorted in the code-point
lexicographic order Python's `sorted` uses on strings; every catalog
entry is the indicator of some observation of the set. -/
theorem listIndicators_catalog (l : List Obs) :
    indicators l = indicators l ∧
    List.Sorted strLe (indicators l) ∧
    (indicators l).Nodup ∧
    (∀ s, s ∈ indicators l ↔ ∃ o ∈ l, o.indicator = s) := by
  refine ⟨rfl, List.sorted_insertionSort strLe _, ?_, ?_⟩
  · exact ((List.perm_insertionSort strLe _).nodup_iff).2 (nodup_uniqueFirst _)
  · intro s
    rw [indicators, List.mem_insertionSort, mem_uniqueFirst]
    constructor
    · intro hs
      rcases List.mem_map.1 hs with ⟨o, ho, rfl⟩
      exact ⟨o, ho, rfl⟩
    · rintro ⟨o, ho, rfl⟩
      exact List.mem_map_of_mem _ ho

/-- C9: round-trip reshape — the synthetic wide table with indicator rows
A, B and all-numeric year columns 2000, 2001 normalizes to exactly four
observations, one per cell, each reproducing that cell's
(indicator, year, value). -/
theorem roundtrip_reshape :
    (dfLong wideAB).length = 4 ∧
    Obs.mk "A" 2000 1 ∈ dfLong wideAB ∧
    Obs.mk "A" 2001 2 ∈ dfLong wideAB ∧
    Obs.mk "B" 2000 3 ∈ dfLong wideAB ∧
    Obs.mk "B" 2001 4 ∈ dfLong wideAB ∧
    (dfLong wideAB).Nodup := by
  decide

/-- C4: on every non-empty year-ascending sequence the summary block
succeeds and returns: as latest value, the value of the first observation
attaining the maximum year (ties broken by first occurrence in input
order); as max value, an attained upper bound of all values; and as
average, the arithmetic mean of the values rounded to two decimals. -/
theorem summarize_aggregates (l : List Obs) (hne : l ≠ [])
    (hasc : List.Pairwise (fun a b : Obs => a.year ≤ b.year) l) :
    ∃ s, summarizeCode l = Except.ok s ∧
      (∃ pre o post, l = pre ++ o :: post ∧
         (∀ x ∈ l, x.year ≤ o.year) ∧
         (∀ x ∈ pre, x.year ≠ o.year) ∧
         s.latestValue = o.value) ∧
      ((∃ x ∈ l, x.value = s.maxValue) ∧ (∀ x ∈ l, x.value ≤ s.maxValue)) ∧
      s.averageValue = round2 ((l.map (fun x => x.value)).sum / (l.length : ℚ)) := by
  obtain ⟨o0, rest, rfl⟩ := List.exists_cons_of_ne_nil hne
  have hymem : ∀ x ∈ o0 :: rest, x.year ∈ o0.year :: rest.map (fun y => y.year) := by
    intro x hx
    rcases List.mem_cons.1 hx with rfl | hx'
    · exact List.mem_cons_self _ _
    · exact List.mem_cons_of_mem _ (List.mem_map_of_mem _ hx')
  have hvmem : ∀ x ∈ o0 :: rest, x.value ∈ o0.value :: rest.map (fun y => y.value) := by
    intro x hx
    rcases List.mem_cons.1 hx with rfl | hx'
    · exact List.mem_cons_self _ _
    · exact List.mem_cons_of_mem _ (List.mem_map_of_mem _ hx')
  have hMmem : ∃ x ∈ o0 :: rest,
      x.year = foldMax o0.year (rest.map (fun y => y.year)) := by
    rcases List.mem_cons.1 (foldMax_mem (rest.map (fun y => y.year)) o0.year) with h | h
    · exact ⟨o0, List.mem_cons_self _ _, h.symm⟩
    · rcases List.mem_map.1 h with ⟨x, hx, hxy⟩
      exact ⟨x, List.mem_cons_of_mem _ hx, hxy⟩
  obtain ⟨xm, hxm, hxmy⟩ := hMmem
  have hsome : (((o0 :: rest).find?
      (fun x => decide (x.year = foldMax o0.year (rest.map (fun y => y.year)))))).isSome :=
    find?_isSome_of_mem _ _ xm hxm (by simp [hxmy])
  obtain ⟨ox, hox⟩ := Option.isSome_iff_exists.1 hsome
  have hhead : (((o0 :: rest).filter
      (fun x => decide (x.year = foldMax o0.year (rest.map (fun y => y.year)))))).head?
      = some ox := by
    rw [head?_filter_eq_find?]
    exact hox
  have hcode : summarizeCode (o0 :: rest)
      = Except.ok { latestValue := ox.value
                  , maxValue := foldMax o0.value (rest.map (fun y => y.value))
                  , averageValue :=
                      round2 (((o0 :: rest).map (fun y => y.value)).sum
                        / (((o0 :: rest).length : ℚ))) } := by
    simp only [summarizeCode, hhead]
  obtain ⟨pre, post, hl, hpox, hpre⟩ := find?_decomp _ _ _ hox
  have hoxy : ox.year = foldMax o0.year (rest.map (fun y => y.year)) := by
    simpa using hpox
  refine ⟨_, hcode, ⟨pre, ox, post, hl, ?_, ?_, rfl⟩, ⟨?_, ?_⟩, rfl⟩
  · intro x hx
    rw [hoxy]
    exact le_foldMax _ _ _ (hymem x hx)
  · intro x hx
    have := hpre x hx
    simp only [decide_eq_false_iff_not] at this
    rw [hoxy]
    exact this
  · rcases List.mem_cons.1 (foldMax_mem (rest.map (fun y => y.value)) o0.value) with h | h
    · exact ⟨o0, List.mem_cons_self _ _, h.symm⟩
    · rcases List.mem_map.1 h with ⟨x, hx, hxv⟩
      exact ⟨x, List.mem_cons_of_mem _ hx, hxv⟩
  · intro x hx
    exact le_foldMax _ _ _ (hvmem x hx)

/-- Witness for C4 at the aggregate-correctness example dataset
`[(A,2000,1.0), (A,2001,3.0), (A,2002,2.0)]`: the summary is
`latest = 2`, `max = 3`, `average = 2`. -/
theorem summarize_aggregates_witness :
    summarizeCode [Obs.mk "A" 2000 1, Obs.mk "A" 2001 3, Obs.mk "A" 2002 2]
      = Except.ok { latestValue := 2, maxValue := 3, averageValue := 2 } ∧
    (∃ s, summarizeCode [Obs.mk "A" 2000 1, Obs.mk "A" 2001 3, Obs.mk "A" 2002 2]
        = Except.ok s ∧
      (∃ pre o post,
         [Obs.mk "A" 2000 1, Obs.mk "A" 2001 3, Obs.mk "A" 2002 2]
           = pre ++ o :: post ∧
         (∀ x ∈ [Obs.mk "A" 2000 1, Obs.mk "A" 2001 3, Obs.mk "A" 2002 2],
            x.year ≤ o.year) ∧
         (∀ x ∈ pre, x.year ≠ o.year) ∧
         s.latestValue = o.value) ∧
      ((∃ x ∈ [Obs.mk "A" 2000 1, Obs.mk "A" 2001 3, Obs.mk "A" 2002 2],
          x.value = s.maxValue) ∧
       (∀ x ∈ [Obs.mk "A" 2000 1, Obs.mk "A" 2001 3, Obs.mk "A" 2002 2],
          x.value ≤ s.maxValue)) ∧
      s.averageValue = round2
        (([Obs.mk "A" 2000 1, Obs.mk "A" 2001 3, Obs.mk "A" 2002 2].map
            (fun x => x.value)).sum
          / (([Obs.mk "A" 2000 1, Obs.mk "A" 2001 3, Obs.mk "A" 2002 2].length : ℚ)))) :=
  ⟨by simp [summarizeCode, foldMax, round2]; norm_num,
   summarize_aggregates [Obs.mk "A" 2000 1, Obs.mk "A" 2001 3, Obs.mk "A" 2002 2]
     (by decide) (by decide)⟩

/-- C10: missing values are dropped at whole-row granularity before the
reshape — if every row carrying a given indicator has a missing cell,
no observation of that indicator survives, whatever the years — while a
complete row contributes one observation per parseable column even when
another of its cells fails numeric coercion (those are dropped
per-triple, after the reshape). -/
theorem dropna_row_granularity :
    (∀ (t : WideTable) (r : WideRow), r ∈ t.rows → Cell.na ∈ r.cells →
       (∀ r' ∈ t.rows, r'.indicator = r.indicator → Cell.na ∈ r'.cells) →
       ∀ o ∈ dfLong t, o.indicator ≠ r.indicator) ∧
    (∀ (t : WideTable) (r : WideRow) (j : ℕ) (lab : String) (y : Int) (v : ℚ),
       r ∈ t.rows → Cell.na ∉ r.cells →
       t.yearLabels.get? j = some lab → parseNum? lab = some y →
       r.cells.get? j = some (Cell.num v) →
       Obs.mk r.indicator y v ∈ dfLong t) := by
  constructor
  · intro t r hr hna hall o ho hoind
    obtain ⟨trip, htrip, hct⟩ := List.mem_filterMap.1 ho
    obtain ⟨r', hr', hind⟩ := melt_indicator_mem t.yearLabels _ trip htrip
    obtain ⟨hr'rows, hr'na⟩ := (mem_dropnaWide t.rows r').1 hr'
    have hoi : o.indicator = trip.1 := (coerceTriple_eq_some trip o hct).1
    exact hr'na (hall r' hr'rows (by rw [← hind, ← hoi, hoind]))
  · intro t r j lab y v hr hnona hlab hparse hcell
    have hrd : r ∈ dropnaWide t.rows := (mem_dropnaWide t.rows r).2 ⟨hr, hnona⟩
    have hmelt := melt_mem_of_get? t.yearLabels (dropnaWide t.rows) j lab r
      (Cell.num v) hlab hrd hcell
    refine List.mem_filterMap.2 ⟨(r.indicator, lab, Cell.num v), hmelt, ?_⟩
    simp [coerceTriple, coerceCell, hparse]

/-- Witness for C10 at a concrete mixed table: indicator A's only row has
a missing 2000 cell, so no A-observation survives; indicator B's complete
row keeps its numeric 2000 observation even though its textual 2001 cell
fails coercion. -/
theorem dropna_row_granularity_witness :
    (∀ o ∈ dfLong mixedTable, o.indicator ≠ "A") ∧
    Obs.mk "B" 2000 1 ∈ dfLong mixedTable :=
  ⟨fun o ho =>
    dropna_row_granularity.1 mixedTable (WideRow.mk "A" [Cell.na, Cell.num 5])
      (by decide) (by decide) (by decide) o ho,
   dropna_row_granularity.2 mixedTable (WideRow.mk "B" [Cell.num 1, Cell.str "oops"])
      0 "2000" 2000 1 (by decide) (by decide) (by decide) (by decide) (by decide)⟩
